import Mathlib

/-!
Verification of the Intent Orchestration Engine of the Jarvis backend
(`backend/app/services/orchestrator.py`), as a shallow embedding.

External collaborators (the Gemini text-generation service, the memory
service, the profile store, the per-domain handlers' own API calls, the
file store) are modelled as an `Oracle` record of call outcomes: each
outbound call either fails (`Except.error`, a raised exception) or
returns a value chosen arbitrarily by the oracle.  The orchestrator's
own control flow — classification fallback, confidence threshold,
routing, history bookkeeping, beautification, the streaming generator —
is translated directly from the Python source.
-/

set_option maxRecDepth 8000

namespace Jarvis

/-! ## String helpers mirroring the Python primitives used by the source -/

/-- Python's `pat in s` membership test on lists of characters:
`pat` occurs as a contiguous infix of `s`. -/
def infixOfB (pat : List Char) : List Char → Bool
  | [] => pat.isEmpty
  | c :: t => pat.isPrefixOf (c :: t) || infixOfB pat t

/-- Python's `pat in s` on strings. -/
def strContains (s pat : String) : Bool := infixOfB pat.data s.data

/-- Python's `str.strip('"')`: remove all leading and trailing `"` characters. -/
def stripQuotes (s : String) : String :=
  let l := s.data.dropWhile (· = '"')
  ⟨(l.reverse.dropWhile (· = '"')).reverse⟩

/-- Python's `str.lower()`, character by character (the source only ever
lowercases ASCII keywords and task titles). -/
def strLower (s : String) : String := ⟨s.data.map Char.toLower⟩

/-! ## Local date-times

`datetime.now().astimezone()` is modelled as an abstract local date-time:
a day number (with the convention that day 0 is a Monday, so that
`weekday = day % 7` agrees with Python's `datetime.weekday()`,
Monday = 0) together with the time-of-day fields that
`_parse_date_range` manipulates via `replace`. -/

structure LocalDT where
  day : ℕ
  hour : ℕ
  minute : ℕ
  second : ℕ
  microsecond : ℕ
deriving DecidableEq, Repr

/-- Python's `datetime.weekday()` (Monday = 0 … Sunday = 6). -/
def LocalDT.weekday (d : LocalDT) : ℕ := d.day % 7

/-- Python's `datetime.replace(hour=…, minute=…, second=…, microsecond=…)`. -/
def LocalDT.replaceTime (d : LocalDT) (h m s us : ℕ) : LocalDT :=
  ⟨d.day, h, m, s, us⟩

/-- Python's `datetime + timedelta(days=k)`. -/
def LocalDT.addDays (d : LocalDT) (k : ℕ) : LocalDT :=
  ⟨d.day + k, d.hour, d.minute, d.second, d.microsecond⟩

/-! ## `OrchestratorService._parse_date_range` -/

/-- The `day_names` dict of `_parse_date_range`, in insertion order. -/
def dayNames : List (String × ℕ) :=
  [("monday", 0), ("tuesday", 1), ("wednesday", 2), ("thursday", 3),
   ("friday", 4), ("saturday", 5), ("sunday", 6)]

/-- Translation of `OrchestratorService._parse_date_range`.  `now` stands
for `datetime.now().astimezone()`. -/
def parseDateRange (transcript : String) (now : LocalDT) : LocalDT × LocalDT :=
  let transcriptLower := strLower transcript
  if strContains transcriptLower "today" then
    (now.replaceTime 0 0 0 0, now.replaceTime 23 59 59 999999)
  else if strContains transcriptLower "tomorrow" then
    let tomorrow := now.addDays 1
    (tomorrow.replaceTime 0 0 0 0, tomorrow.replaceTime 23 59 59 999999)
  else
    match dayNames.find? (fun p => strContains transcriptLower p.1) with
    | some (_, dayNum) =>
      -- days_ahead = (day_num - current_day) % 7; if 0 then next week
      let currentDay := now.weekday
      let daysAhead := (((dayNum : ℤ) - (currentDay : ℤ)) % 7).toNat
      let daysAhead := if daysAhead = 0 then 7 else daysAhead
      let target := now.addDays daysAhead
      (target.replaceTime 0 0 0 0, target.replaceTime 23 59 59 999999)
    | none =>
      (now.replaceTime 0 0 0 0, (now.addDays 7).replaceTime 23 59 59 999999)

/-! ## `difflib.SequenceMatcher` (stdlib) and
`OrchestratorService._find_best_task_match`

`_find_best_task_match` scores candidates with
`SequenceMatcher(None, query.lower(), title.lower()).ratio()`.
`ratio` is `2 * M / T` where `T` is the total length of the two
sequences and `M` the total size of the matching blocks.  The inputs
here are far below difflib's autojunk threshold (`len(b) >= 200`), so
no element is junk and `find_longest_match` reduces to: the first
(lowest `i`, then lowest `j`) longest common run inside the window.
Scores are modelled as exact rationals; Python compares doubles, but a
ratio that equals 0.6 exactly (such as `2*3/10`) rounds to the same
double as the literal `0.6`, so the `score > 0.6` comparison agrees. -/

/-- Length of the common run of `a` and `b` ending at positions `i`/`j`
and staying inside the window floors `alo`/`blo`: the value difflib's
`j2len` dict carries for `(i, j)`. -/
def suffixRun (a b : List Char) (alo blo : ℕ) : ℕ → ℕ → ℕ
  | 0, j =>
    match a.get? 0, b.get? j with
    | some ca, some cb => if ca = cb then 1 else 0
    | _, _ => 0
  | i + 1, j =>
    match a.get? (i + 1), b.get? j with
    | some ca, some cb =>
      if ca = cb then
        (if alo < i + 1 ∧ blo < j then suffixRun a b alo blo i (j - 1) else 0) + 1
      else 0
    | _, _ => 0

/-- `SequenceMatcher.find_longest_match(alo, ahi, blo, bhi)` (no junk):
scan `i` ascending then `j` ascending, keep `(i-k+1, j-k+1, k)` for the
first strictly larger run length `k`; start from `(alo, blo, 0)`. -/
def findLongestMatch (a b : List Char) (alo ahi blo bhi : ℕ) : ℕ × ℕ × ℕ :=
  (List.range' alo (ahi - alo)).foldl
    (fun best i =>
      (List.range' blo (bhi - blo)).foldl
        (fun best j =>
          let k := suffixRun a b alo blo i j
          if best.2.2 < k then (i + 1 - k, j + 1 - k, k) else best)
        best)
    (alo, blo, 0)

/-- Total size of `SequenceMatcher.get_matching_blocks()`: recursively
split the window at the longest match.  `fuel` is a structural bound on
the recursion depth; `(length a) + (length b) + 1` always suffices
because every split strictly shrinks the window. -/
def matchingTotal (a b : List Char) : ℕ → ℕ × ℕ → ℕ × ℕ → ℕ
  | 0, _, _ => 0
  | fuel + 1, (alo, ahi), (blo, bhi) =>
    let (i, j, k) := findLongestMatch a b alo ahi blo bhi
    if k = 0 then 0
    else matchingTotal a b fuel (alo, i) (blo, j) + k +
         matchingTotal a b fuel (i + k, ahi) (j + k, bhi)

/-- `SequenceMatcher(None, a, b).ratio()`: the exact rational
`2 * M / T` (written `mkRat`, which is the same value), and `1.0` when
both sequences are empty (difflib's `_calculate_ratio`). -/
def smRatio (a b : List Char) : ℚ :=
  let m := matchingTotal a b (a.length + b.length + 1) (0, a.length) (0, b.length)
  let t := a.length + b.length
  if t = 0 then 1 else mkRat (2 * m) t

/-- A stored task record; `_find_best_task_match` reads `task.get('title', '')`. -/
structure Task where
  title : String
deriving DecidableEq, Repr

/-- The score `_find_best_task_match` computes for one candidate:
`SequenceMatcher(None, query.lower(), title.lower()).ratio()`. -/
def taskScore (query : String) (t : Task) : ℚ :=
  smRatio (strLower query).data (strLower t.title).data

/-- The loop body of `_find_best_task_match`: update `(best_match,
best_score)` when `score > best_score and score > 0.6`. -/
def fbmStep (query : String) (best : Option Task × ℚ) (task : Task) : Option Task × ℚ :=
  let score := taskScore query task
  if best.2 < score ∧ mkRat 6 10 < score then (some task, score) else best

/-- Translation of `OrchestratorService._find_best_task_match`:
fold the loop body over the tasks starting from `(None, 0.0)` and
return the best match. -/
def findBestTaskMatch (query : String) (tasks : List Task) : Option Task :=
  (tasks.foldl (fbmStep query) ((none : Option Task), (0 : ℚ))).1

/-! ## Data model of the orchestration core -/

/-- One message of a user's conversation history:
`{"role": "user"/"model", "parts": content}`. -/
structure Msg where
  role : String
  parts : String
deriving DecidableEq, Repr

/-- The universal handler contract `{type, data, message}`.  `data` is an
opaque summary of the structured payload; `message := none` models a dict
returned without a `"message"` key. -/
structure HandlerResult where
  type : String
  data : Option String
  message : Option String
deriving DecidableEq, Repr

deriving instance DecidableEq for Except

/-- A user profile; the fields `_get_user_profile`'s default carries. -/
structure Profile where
  userId : String
  name : Option String
  timezone : Option String
  dietary : Option String
  learning : Option String
deriving DecidableEq, Repr

/-- The minimal default profile returned when the profile store fails. -/
def defaultProfile (userId : String) : Profile :=
  ⟨userId, none, some "America/New_York", none, none⟩

/-- Mutable per-service state: `self.user_profile_cache` and
`self.conversation_history` (both dicts keyed by user id; a key absent
from `conversation_history` is observationally the empty list, matching
`self.conversation_history.get(user_id, [])`). -/
structure OrchState where
  userProfileCache : String → Option Profile
  conversationHistory : String → List Msg

/-- The state `__init__` sets up: both dicts empty. -/
def OrchState.init : OrchState :=
  ⟨fun _ => none, fun _ => []⟩

/-- Observable events of one turn.  `yielded` is an item the async
generator hands to the consumer; `histAppend` is a `_add_to_history`
call; `classifyCall` is an outbound `classify_intent` call;
`handlerRun` names the handler (or streaming branch) that executes. -/
inductive SEvent where
  | classifyCall : SEvent
  | handlerRun (name : String) : SEvent
  | histAppend (userId role content : String) : SEvent
  | yielded (message intent : String) (confidence : ℚ) : SEvent
deriving DecidableEq, Repr

/-- Outcomes of every outbound collaborator call of one turn.  An
`Except.error` is the collaborator raising; an `Except.ok` is it
returning a value, chosen arbitrarily.  `handler` covers the domain
handlers of the dispatch table other than `_handle_general_chat` /
`_handle_doc_analysis` (which are translated concretely below): each is
a `try/except`-wrapped body whose outcome the oracle supplies, keyed by
intent; an `Except.error` models the (unexpected) case of a handler
raising past its own boundary. -/
structure Oracle where
  /-- `profile_tool.get_or_create_profile(user_id)`. -/
  profileLoad : String → Except String Profile
  /-- `get_file_path(file_id)`: `None` when the id does not resolve. -/
  filePath : String → Option String
  /-- `gemini_service.classify_intent(transcript, history)`: the parsed
  `{intent, confidence}` JSON, or a raised/parse error. -/
  classify : String → List Msg → Except String (String × ℚ)
  /-- `memory_service.get_all_memories(user_id)` (texts only). -/
  memories : String → Except String (List String)
  /-- `gemini_service.generate_response(transcript, …, memory_context, …)`:
  the raw `response.text` before `.strip()`. -/
  generateChat : String → String → Except String String
  /-- `gemini_service.generate_response_stream(message, …)`: the raw
  chunk texts. -/
  generateStream : String → Except String (List String)
  /-- The `generate_content` call inside `_beautify_response`: the raw
  `response.text` before `.strip()`. -/
  beautifyGen : String → Except String String
  /-- The remaining domain handlers, keyed by intent. -/
  handler : String → String → Except String HandlerResult

/-! ## Session-store and collaborator-wrapper translations -/

/-- Translation of `OrchestratorService._add_to_history`: append, then
keep only the last 10 messages. -/
def addToHistory (st : OrchState) (userId role content : String) : OrchState :=
  let h := st.conversationHistory userId ++ [Msg.mk role content]
  let h := if h.length > 10 then h.drop (h.length - 10) else h
  { st with conversationHistory := fun u => if u = userId then h else st.conversationHistory u }

/-- Translation of `OrchestratorService._get_user_profile`: session cache
first; on a miss load from the store and cache it; on a store failure
return the minimal default (uncached). -/
def getUserProfile (env : Oracle) (st : OrchState) (userId : String) : Profile × OrchState :=
  match st.userProfileCache userId with
  | some p => (p, st)
  | none =>
    match env.profileLoad userId with
    | Except.ok p =>
      (p, { st with userProfileCache := fun u => if u = userId then some p else st.userProfileCache u })
    | Except.error _ => (defaultProfile userId, st)

/-- Translation of `GeminiService.classify_intent`'s result: the parsed
JSON on success, `{"intent": "GENERAL_CHAT", "confidence": 0.5}` on any
provider or parse failure. -/
def classifyIntent (env : Oracle) (transcript : String) (history : List Msg) : String × ℚ :=
  match env.classify transcript history with
  | Except.ok r => r
  | Except.error _ => ("GENERAL_CHAT", mkRat 1 2)

/-- Step 3 of both `process_transcript` and `process_transcript_stream`:
when resolved attachments are present, skip the classifier entirely and
force `DOC_ANALYSIS` with confidence 1.0; otherwise call
`classify_intent`.  Returns `(intent, confidence, events)` where the
events record whether an outbound classifier call was made. -/
def classifyStep (env : Oracle) (transcript : String) (history : List Msg)
    (filePaths : List String) : String × ℚ × List SEvent :=
  if filePaths ≠ [] then ("DOC_ANALYSIS", (1 : ℚ), ([] : List SEvent))
  else
    let r := classifyIntent env transcript history
    (r.1, r.2, [SEvent.classifyCall])

/-- Python's `"\n".join`. -/
def joinLines : List String → String
  | [] => ""
  | [s] => s
  | s :: rest => s ++ "\n" ++ joinLines rest

/-- Python's `str.strip()` (whitespace at both ends). -/
def pyStrip (s : String) : String :=
  let l := s.data.dropWhile Char.isWhitespace
  ⟨(l.reverse.dropWhile Char.isWhitespace).reverse⟩

/-- Translation of `GeminiService.generate_response`: the stripped
response text, or the fixed apology on any provider failure (the
function catches internally and never raises). -/
def generateResponseText (env : Oracle) (userMessage memoryContext : String) : String :=
  match env.generateChat userMessage memoryContext with
  | Except.ok text => pyStrip text
  | Except.error _ => "I'm having trouble thinking right now. Can you try again?"

/-- Translation of `GeminiService.generate_response_stream`'s observable
chunk sequence: the non-empty chunk texts (`if chunk.text:`), or the
fixed fallback chunk when the provider raises (the generator catches
internally and yields it). -/
def generateResponseStreamChunks (env : Oracle) (userMessage : String) : List String :=
  match env.generateStream userMessage with
  | Except.ok chunks => chunks.filter (fun c => c ≠ "")
  | Except.error _ => ["I'm having trouble thinking right now."]

/-! ## Handlers translated concretely -/

/-- Translation of `OrchestratorService._handle_general_chat`.  The
memory-context injection catches its own failures; the generation call
catches internally; hence the handler's outer `except` is unreachable
and the handler is total. -/
def handleGeneralChat (env : Oracle) (transcript : String) (profile : Option Profile)
    (history : Option (List Msg)) (userId : Option String) (filePaths : List String) :
    HandlerResult :=
  let memoryContext :=
    match userId with
    | some u =>
      if u ≠ "" then   -- `if user_id:` (None and "" are falsy)
        match env.memories u with
        | Except.error _ => ""
        | Except.ok mems =>
          let memoryParts := (mems.filter (fun t => t ≠ "")).map (fun t => "- " ++ t)
          if memoryParts ≠ [] then
            "Facts the user told me about themselves (these describe the user's life, NOT the user's name - use 'your' when referencing):\n"
              ++ joinLines memoryParts
          else ""
      else ""
    | none => ""
  let message := generateResponseText env transcript memoryContext
  { type := "conversation", data := some "casual", message := some message }

/-- Translation of `OrchestratorService._handle_doc_analysis`: prepend
the focus instruction and delegate to `_handle_general_chat`. -/
def handleDocAnalysis (env : Oracle) (transcript : String) (profile : Profile)
    (history : List Msg) (userId : String) (filePaths : List String) : HandlerResult :=
  let focusedTranscript :=
    "[SYSTEM: Analyze the provided document/image. Answer the user based ONLY on the content of the file(s).] "
      ++ transcript
  handleGeneralChat env focusedTranscript (some profile) (some history) (some userId) filePaths

/-- Translation of `OrchestratorService._beautify_response`: skip
messages shorter than 30 characters; strip and unquote the rewrite; on
any failure or an empty rewrite keep the original. -/
def beautifyResponse (env : Oracle) (rawMessage intent : String) : String :=
  if rawMessage.length < 30 then rawMessage
  else
    match env.beautifyGen rawMessage with
    | Except.error _ => rawMessage
    | Except.ok text =>
      let beautified := pyStrip text
      let beautified :=
        match beautified.data with   -- beautified.startswith('"')
        | c :: _ => if c = '"' then stripQuotes beautified else beautified
        | [] => beautified
      if beautified ≠ "" then beautified else rawMessage

/-! ## `OrchestratorService._route_to_handler` -/

/-- The keys of the `handlers` dispatch dict, in order. -/
def handlersKeys : List String :=
  ["GET_WEATHER", "ADD_TASK", "COMPLETE_TASK", "UPDATE_TASK", "DELETE_TASK",
   "LIST_TASKS", "GET_TASK_REMINDERS", "DAILY_SUMMARY", "CREATE_CALENDAR_EVENT",
   "UPDATE_CALENDAR_EVENT", "DELETE_CALENDAR_EVENT", "CHECK_EMAIL", "SEARCH_EMAIL",
   "READ_EMAIL", "ANALYZE_EMAIL", "SEARCH_RESTAURANTS", "REMEMBER_THIS",
   "RECALL_MEMORY", "FORGET_THIS", "LEARN", "GET_NEWS", "DOC_ANALYSIS"]

/-- The confidence-fallback block duplicated at lines 151–155 and
336–340 of the source: below the 0.7 threshold the intent is downgraded
to `GENERAL_CHAT`. -/
def applyConfidenceFallback (intent : String) (confidence : ℚ) : String :=
  if confidence < mkRat 7 10 then "GENERAL_CHAT" else intent

/-- Translation of `OrchestratorService._route_to_handler`.  Returns the
`handlerRun` event naming the handler that executes, and the handler
response (after the beautify step), or the exception a domain handler
raised.  The `DOC_ANALYSIS` entry of the dispatch dict is
`_handle_doc_analysis` and is translated concretely; `handlers.get`'s
default and the `GENERAL_CHAT` special case are `_handle_general_chat`. -/
def routeToHandler (env : Oracle) (intent transcript : String) (confidence : ℚ)
    (profile : Profile) (history : List Msg) (userId : String)
    (filePaths : List String) : List SEvent × Except String HandlerResult :=
  -- Fallback to general chat for low confidence (threshold 0.7)
  let intent := applyConfidenceFallback intent confidence
  let dispatched : List SEvent × Except String HandlerResult :=
    if intent = "GENERAL_CHAT" then
      ([SEvent.handlerRun "GENERAL_CHAT"],
       Except.ok (handleGeneralChat env transcript (some profile) (some history) (some userId) filePaths))
    else if intent = "DOC_ANALYSIS" then
      ([SEvent.handlerRun "DOC_ANALYSIS"],
       Except.ok (handleDocAnalysis env transcript profile history userId filePaths))
    else if handlersKeys.contains intent then
      ([SEvent.handlerRun intent], env.handler intent transcript)
    else
      ([SEvent.handlerRun "GENERAL_CHAT"],
       Except.ok (handleGeneralChat env transcript (some profile) (some history) (some userId) filePaths))
  (dispatched.1,
   match dispatched.2 with
   | Except.error e => Except.error e
   | Except.ok hr =>
     -- Beautify unless the (post-fallback) intent is GENERAL_CHAT
     if hr.message.isSome ∧ intent ≠ "GENERAL_CHAT" then
       Except.ok { hr with message := hr.message.map (fun m => beautifyResponse env m intent) }
     else Except.ok hr)

/-! ## `OrchestratorService.process_transcript` (buffered mode) -/

/-- The record `process_transcript` returns. -/
structure TurnResult where
  transcript : String
  intent : String
  confidence : ℚ
  handlerResponse : HandlerResult
deriving DecidableEq, Repr

/-- Translation of `OrchestratorService.process_transcript`.  Returns the
result record, the state after the turn, and the observable events.
The `except Exception` branch is reachable exactly when a domain handler
raises or returns a dict without a `"message"` key (the access
`handler_response["message"]` on line 77 raises `KeyError` after the
user message was already appended on line 76); it falls back to
`_handle_general_chat(transcript)` with no profile, history or user id,
and reports intent `GENERAL_CHAT` with confidence 0.0.  The function is
total: no exception propagates to the caller. -/
def processTranscript (env : Oracle) (st : OrchState) (transcript userId : String)
    (fileIds : List String) : TurnResult × OrchState × List SEvent :=
  let pr := getUserProfile env st userId
  let profile := pr.1
  let st1 := pr.2
  let history := st1.conversationHistory userId
  let filePaths := fileIds.filterMap env.filePath
  let cls := classifyStep env transcript history filePaths
  let intent := cls.1
  let confidence := cls.2.1
  let evClassify := cls.2.2
  let rr := routeToHandler env intent transcript confidence profile history userId filePaths
  let evRoute := rr.1
  let routed := rr.2
  let events := evClassify ++ evRoute
  match routed with
  | Except.ok hr =>
    let st2 := addToHistory st1 userId "user" transcript
    match hr.message with
    | some m =>
      let st3 := addToHistory st2 userId "model" m
      (⟨transcript, intent, confidence, hr⟩, st3,
       events ++ [SEvent.histAppend userId "user" transcript, SEvent.histAppend userId "model" m])
    | none =>
      let fallback := handleGeneralChat env transcript none none none []
      (⟨transcript, "GENERAL_CHAT", 0, fallback⟩, st2,
       events ++ [SEvent.histAppend userId "user" transcript, SEvent.handlerRun "GENERAL_CHAT"])
  | Except.error _ =>
    let fallback := handleGeneralChat env transcript none none none []
    (⟨transcript, "GENERAL_CHAT", 0, fallback⟩, st1, events ++ [SEvent.handlerRun "GENERAL_CHAT"])

/-! ## `OrchestratorService.process_transcript_stream` (streaming mode)

The async generator is embedded as the list of its observable events in
source order.  Closing the transport after the consumer has received the
`n`-th yielded item means exactly the code up to and including the
`n`-th `yield` has run; the generator then receives `GeneratorExit` at
that yield point, so later events do not happen (the `finally` block
still runs but performs no history update — its own stray `yield`
raises `RuntimeError` during a close). -/

/-- Translation of `OrchestratorService.process_transcript_stream` as its
full (uncancelled, fully consumed) event trace. -/
def streamTrace (env : Oracle) (st : OrchState) (transcript userId : String)
    (fileIds : List String) : List SEvent :=
  let pr := getUserProfile env st userId
  let profile := pr.1
  let st1 := pr.2
  let history := st1.conversationHistory userId
  let filePaths := fileIds.filterMap env.filePath
  let cls := classifyStep env transcript history filePaths
  let confidence := cls.2.1
  let evClassify := cls.2.2
  -- Apply confidence threshold
  let intent := applyConfidenceFallback cls.1 confidence
  let body :=
    if intent = "GENERAL_CHAT" then
      -- user message appended BEFORE streaming; model reply appended after
      let chunks := generateResponseStreamChunks env transcript
      [SEvent.handlerRun "GENERAL_CHAT", SEvent.histAppend userId "user" transcript]
        ++ chunks.map (fun c => SEvent.yielded c intent confidence)
        ++ [SEvent.histAppend userId "model" (String.join chunks)]
    else if intent = "DOC_ANALYSIS" then
      let analysisTranscript :=
        "[SYSTEM: Focus exclusively on the provided document/image. Answer based ONLY on its content.] "
          ++ transcript
      let chunks := generateResponseStreamChunks env analysisTranscript
      [SEvent.handlerRun "DOC_ANALYSIS", SEvent.histAppend userId "user" transcript]
        ++ chunks.map (fun c => SEvent.yielded c intent confidence)
        ++ [SEvent.histAppend userId "model" (String.join chunks)]
    else
      -- structured intents: run the full handler, then a single yield
      let rr := routeToHandler env intent transcript confidence profile history userId filePaths
      let evRoute := rr.1
      match rr.2 with
      | Except.ok hr =>
        match hr.message with
        | some m =>
          evRoute ++ [SEvent.histAppend userId "user" transcript,
                      SEvent.histAppend userId "model" m,
                      SEvent.yielded m intent confidence]
        | none =>
          -- KeyError on handler_response["message"] → except branch
          evRoute ++ [SEvent.histAppend userId "user" transcript,
                      SEvent.yielded "I'm sorry, I encountered an error. How else can I help?" "GENERAL_CHAT" 0]
      | Except.error _ =>
        evRoute ++ [SEvent.yielded "I'm sorry, I encountered an error. How else can I help?" "GENERAL_CHAT" 0]
  -- finally: file cleanup and fire-and-forget profile extraction touch no
  -- orchestrator state; then the unconditional trailing `yield` (line 215)
  evClassify ++ body
    ++ [SEvent.yielded "I'm having trouble processing that right now." "GENERAL_CHAT" 0]

/-! ## Trace observations -/

/-- The items the consumer receives from a trace. -/
def yieldsOf : List SEvent → List (String × String × ℚ)
  | [] => []
  | SEvent.yielded m i c :: rest => (m, i, c) :: yieldsOf rest
  | _ :: rest => yieldsOf rest

/-- The handlers (or streaming branches) a trace executes. -/
def handlerRunsOf : List SEvent → List String
  | [] => []
  | SEvent.handlerRun n :: rest => n :: handlerRunsOf rest
  | _ :: rest => handlerRunsOf rest

/-- Replay the `_add_to_history` calls of a trace on a state. -/
def applyHist : OrchState → List SEvent → OrchState
  | st, [] => st
  | st, SEvent.histAppend u r c :: rest => applyHist (addToHistory st u r c) rest
  | st, _ :: rest => applyHist st rest

/-- The prefix of a trace that runs when the transport is closed after
the consumer received the `n`-th yielded item (`n ≥ 1`): everything up
to and including the `n`-th `yield`. -/
def takeThroughYields : ℕ → List SEvent → List SEvent
  | _, [] => []
  | n, SEvent.yielded m i c :: rest =>
    if n ≤ 1 then [SEvent.yielded m i c]
    else SEvent.yielded m i c :: takeThroughYields (n - 1) rest
  | n, e :: rest => e :: takeThroughYields n rest

/-! ## Auxiliary definitions for the statements -/

/-- The last `n` elements of a list. -/
def lastN (n : ℕ) (l : List Msg) : List Msg := l.drop (l.length - n)

/-- Run a sequence of `_add_to_history` calls (`(user_id, role, content)`
triples) from the freshly initialised service state. -/
def runHistOps (ops : List (String × String × String)) : OrchState :=
  ops.foldl (fun st op => addToHistory st op.1 op.2.1 op.2.2) OrchState.init

/-- All messages a sequence of `_add_to_history` calls appends for one
user, in order. -/
def msgsFor (u : String) (ops : List (String × String × String)) : List Msg :=
  (ops.filter (fun op => op.1 == u)).map (fun op => Msg.mk op.2.1 op.2.2)

/-- An environment in which every outbound collaborator call fails. -/
def allFailEnv : Oracle where
  profileLoad := fun _ => Except.error "boom"
  filePath := fun _ => none
  classify := fun _ _ => Except.error "boom"
  memories := fun _ => Except.error "boom"
  generateChat := fun _ _ => Except.error "boom"
  generateStream := fun _ => Except.error "boom"
  beautifyGen := fun _ => Except.error "boom"
  handler := fun _ _ => Except.error "boom"

/-- A concrete environment in which classification fails (so the turn
falls back to general chat) and the generation collaborator SUCCEEDS
but returns whitespace-only text. -/
def emptyGenEnv : Oracle where
  profileLoad := fun u => Except.ok (defaultProfile u)
  filePath := fun _ => none
  classify := fun _ _ => Except.error "parse"
  memories := fun _ => Except.ok []
  generateChat := fun _ _ => Except.ok "   "
  generateStream := fun _ => Except.error "unused"
  beautifyGen := fun _ => Except.error "unused"
  handler := fun _ _ => Except.error "unused"

/-- A concrete environment for a conversational streamed turn: the
classifier reports `GENERAL_CHAT` with confidence 0.9 and the generation
stream produces two chunks. -/
def chatStreamEnv : Oracle where
  profileLoad := fun u => Except.ok (defaultProfile u)
  filePath := fun _ => none
  classify := fun _ _ => Except.ok ("GENERAL_CHAT", mkRat 9 10)
  memories := fun _ => Except.ok []
  generateChat := fun _ _ => Except.ok "Hello friend"
  generateStream := fun _ => Except.ok ["Hello", " friend"]
  beautifyGen := fun _ => Except.error "quota"
  handler := fun _ _ => Except.error "unused"

/-- A concrete environment in which the classifier reports a structured
intent (`DELETE_TASK`) with low confidence 0.5. -/
def lowConfStreamEnv : Oracle where
  profileLoad := fun u => Except.ok (defaultProfile u)
  filePath := fun _ => none
  classify := fun _ _ => Except.ok ("DELETE_TASK", mkRat 1 2)
  memories := fun _ => Except.ok []
  generateChat := fun _ _ => Except.ok "Sure!"
  generateStream := fun _ => Except.ok ["Sure", "!"]
  beautifyGen := fun _ => Except.error "quota"
  handler := fun _ _ => Except.error "unused"

/-- A concrete environment for a structured streamed turn: the
classifier reports `GET_WEATHER` with confidence 0.9 and the weather
handler succeeds. -/
def weatherStreamEnv : Oracle where
  profileLoad := fun u => Except.ok (defaultProfile u)
  filePath := fun _ => none
  classify := fun _ _ => Except.ok ("GET_WEATHER", mkRat 9 10)
  memories := fun _ => Except.ok []
  generateChat := fun _ _ => Except.ok "Hello!"
  generateStream := fun _ => Except.ok ["Hi"]
  beautifyGen := fun _ => Except.error "quota"
  handler := fun _ _ => Except.ok ⟨"weather", some "70F", some "It is sunny."⟩

/-- A concrete environment for a buffered `DOC_ANALYSIS` turn whose
beautify rewrite succeeds and returns a different text. -/
def docBeautifyEnv : Oracle where
  profileLoad := fun u => Except.ok (defaultProfile u)
  filePath := fun f => some f
  classify := fun _ _ => Except.error "unused"
  memories := fun _ => Except.error "boom"
  generateChat := fun _ _ => Except.ok "This is the document analysis result text."
  generateStream := fun _ => Except.error "unused"
  beautifyGen := fun _ => Except.ok "Rewritten."
  handler := fun _ _ => Except.error "unused"

end Jarvis

namespace Jarvis

/-! ## C2: bounded FIFO conversation history -/

lemma addToHistory_other (st : OrchState) (u u' role content : String) (h : u ≠ u') :
    (addToHistory st u' role content).conversationHistory u = st.conversationHistory u := by
  simp [addToHistory, h]

lemma addToHistory_self (st : OrchState) (u role content : String) :
    (addToHistory st u role content).conversationHistory u =
      (if (st.conversationHistory u ++ [Msg.mk role content]).length > 10
       then (st.conversationHistory u ++ [Msg.mk role content]).drop
              ((st.conversationHistory u ++ [Msg.mk role content]).length - 10)
       else st.conversationHistory u ++ [Msg.mk role content]) := by
  simp [addToHistory]

lemma lastN_step (L : List Msg) (m : Msg) :
    (if (lastN 10 L ++ [m]).length > 10
     then (lastN 10 L ++ [m]).drop ((lastN 10 L ++ [m]).length - 10)
     else lastN 10 L ++ [m]) = lastN 10 (L ++ [m]) := by
  have hlen : (lastN 10 L).length = L.length - (L.length - 10) := by simp [lastN]
  by_cases hL : L.length ≤ 9
  · have h0 : L.length - 10 = 0 := by omega
    have hLeq : lastN 10 L = L := by simp [lastN, h0]
    rw [hLeq]
    have hc : ¬ (L ++ [m]).length > 10 := by
      simp only [List.length_append, List.length_singleton]; omega
    rw [if_neg hc]
    unfold lastN
    have h1 : (L ++ [m]).length - 10 = 0 := by
      simp only [List.length_append, List.length_singleton]; omega
    rw [h1, List.drop_zero]
  · have h10 : (lastN 10 L).length = 10 := by omega
    have hlen2 : (lastN 10 L ++ [m]).length = 11 := by
      simp only [List.length_append, List.length_singleton, h10]
    have hc : (lastN 10 L ++ [m]).length > 10 := by omega
    rw [if_pos hc]
    have hd : (lastN 10 L ++ [m]).length - 10 = 1 := by omega
    rw [hd, List.drop_append_of_le_length (by omega : 1 ≤ (lastN 10 L).length)]
    unfold lastN
    rw [List.drop_drop]
    have e1 : L.length - 10 + 1 = L.length - 9 := by omega
    have e2 : (L ++ [m]).length - 10 = L.length - 9 := by
      simp only [List.length_append, List.length_singleton]; omega
    rw [e1, e2, List.drop_append_of_le_length (by omega : L.length - 9 ≤ L.length)]

/-- C2: after any sequence of `_add_to_history` operations from the
initial state, every user's conversation history is exactly the last 10
of the messages appended for that user, in order (oldest evicted
first); in particular its length never exceeds 10. -/
theorem history_bounded_fifo (ops : List (String × String × String)) (u : String) :
    (runHistOps ops).conversationHistory u = lastN 10 (msgsFor u ops) ∧
    ((runHistOps ops).conversationHistory u).length ≤ 10 := by
  have main : (runHistOps ops).conversationHistory u = lastN 10 (msgsFor u ops) := by
    induction ops using List.reverseRecOn with
    | nil => simp [runHistOps, OrchState.init, msgsFor, lastN]
    | append_singleton ops op ih =>
      have hrun : runHistOps (ops ++ [op]) =
          addToHistory (runHistOps ops) op.1 op.2.1 op.2.2 := by
        simp [runHistOps, List.foldl_append]
      rw [hrun]
      by_cases hu : op.1 = u
      · have hmsgs : msgsFor u (ops ++ [op]) = msgsFor u ops ++ [Msg.mk op.2.1 op.2.2] := by
          simp [msgsFor, List.filter_append, hu]
        rw [hmsgs, ← hu, addToHistory_self, hu, ih]
        exact lastN_step _ _
      · have hmsgs : msgsFor u (ops ++ [op]) = msgsFor u ops := by
          simp [msgsFor, List.filter_append, hu]
        rw [addToHistory_other _ _ _ _ _ (fun h => hu h.symm), hmsgs, ih]
  refine ⟨main, ?_⟩
  rw [main]
  simp [lastN]
  omega

end Jarvis

namespace Jarvis

/-! ## C7: the shared date-range parser -/

lemma find?_eq_head?_filter {α} (p : α → Bool) (l : List α) :
    l.find? p = (l.filter p).head? := by
  induction l with
  | nil => rfl
  | cons a t ih =>
    cases h : p a
    · rw [List.find?_cons_of_neg _ (by simp [h]), List.filter_cons_of_neg (by simp [h]), ih]
    · rw [List.find?_cons_of_pos _ h, List.filter_cons_of_pos h, List.head?_cons]

/-- C7: `_parse_date_range` maps an utterance containing "today" to the
current day's `[00:00:00, 23:59:59.999999]` window; one containing
"tomorrow" (and not "today") to the same window one day later; one whose
only weekday keyword is `wd` (and without "today"/"tomorrow") to the
next occurrence of that weekday — strictly in the future, at most 7 days
ahead, and exactly 7 days ahead when today already is that weekday; and
any other utterance to the default window `[today 00:00, +7 days
23:59:59.999999]`. -/
theorem parse_date_range_cases (t : String) (now : LocalDT) :
    (strContains (strLower t) "today" = true →
       parseDateRange t now =
         (⟨now.day, 0, 0, 0, 0⟩, ⟨now.day, 23, 59, 59, 999999⟩)) ∧
    (strContains (strLower t) "today" = false →
       strContains (strLower t) "tomorrow" = true →
       parseDateRange t now =
         (⟨now.day + 1, 0, 0, 0, 0⟩, ⟨now.day + 1, 23, 59, 59, 999999⟩)) ∧
    (∀ name wd,
       strContains (strLower t) "today" = false →
       strContains (strLower t) "tomorrow" = false →
       dayNames.filter (fun p => strContains (strLower t) p.1) = [(name, wd)] →
       ∃ d, parseDateRange t now =
           (⟨d, 0, 0, 0, 0⟩, ⟨d, 23, 59, 59, 999999⟩) ∧
         now.day < d ∧ d ≤ now.day + 7 ∧ d % 7 = wd ∧
         (now.day % 7 = wd → d = now.day + 7)) ∧
    (strContains (strLower t) "today" = false →
       strContains (strLower t) "tomorrow" = false →
       dayNames.filter (fun p => strContains (strLower t) p.1) = [] →
       parseDateRange t now =
         (⟨now.day, 0, 0, 0, 0⟩, ⟨now.day + 7, 23, 59, 59, 999999⟩)) := by
  refine ⟨?_, ?_, ?_, ?_⟩
  · intro h
    simp [parseDateRange, h, LocalDT.replaceTime]
  · intro h1 h2
    simp [parseDateRange, h1, h2, LocalDT.replaceTime, LocalDT.addDays]
  · intro name wd h1 h2 hf
    have hfind : dayNames.find? (fun p => strContains (strLower t) p.1) = some (name, wd) := by
      rw [find?_eq_head?_filter, hf]; rfl
    have hwd : wd < 7 := by
      have hmem : (name, wd) ∈ dayNames := by
        have hm : (name, wd) ∈ dayNames.filter (fun p => strContains (strLower t) p.1) := by
          rw [hf]; exact List.mem_singleton.mpr rfl
        exact List.mem_of_mem_filter hm
      simp only [dayNames, List.mem_cons, List.not_mem_nil, or_false, Prod.mk.injEq] at hmem
      rcases hmem with ⟨-, rfl⟩ | ⟨-, rfl⟩ | ⟨-, rfl⟩ | ⟨-, rfl⟩ | ⟨-, rfl⟩ | ⟨-, rfl⟩ | ⟨-, rfl⟩ <;>
        omega
    have hk0 : (0 : ℤ) ≤ ((wd : ℤ) - ((now.day % 7 : ℕ) : ℤ)) % 7 :=
      Int.emod_nonneg _ (by norm_num)
    have hk7 : ((wd : ℤ) - ((now.day % 7 : ℕ) : ℤ)) % 7 < 7 :=
      Int.emod_lt_of_pos _ (by norm_num)
    have hdiv := Int.emod_add_ediv ((wd : ℤ) - ((now.day % 7 : ℕ) : ℤ)) 7
    by_cases hz : (((wd : ℤ) - ((now.day % 7 : ℕ) : ℤ)) % 7).toNat = 0
    · refine ⟨now.day + 7, ?_, by omega, by omega, by omega, fun _ => rfl⟩
      simp [parseDateRange, h1, h2, hfind, LocalDT.weekday, hz, LocalDT.addDays,
            LocalDT.replaceTime]
      omega
    · refine ⟨now.day + (((wd : ℤ) - ((now.day % 7 : ℕ) : ℤ)) % 7).toNat, ?_,
        by omega, by omega, by omega, by omega⟩
      simp [parseDateRange, h1, h2, hfind, LocalDT.weekday, hz, LocalDT.addDays,
            LocalDT.replaceTime]
      omega
  · intro h1 h2 hf
    have hfind : dayNames.find? (fun p => strContains (strLower t) p.1) = none := by
      rw [find?_eq_head?_filter, hf]; rfl
    simp [parseDateRange, h1, h2, hfind, LocalDT.replaceTime, LocalDT.addDays]

/-- Witness for C7 at concrete inputs: `now` is a Friday (day 4 with the
Monday-is-0 convention); "today", "tomorrow", "friday" and a
keyword-free utterance exercise the four cases ("friday" on a Friday
lands 7 days ahead). -/
theorem parse_date_range_cases_witness :
    (strContains (strLower "is it sunny today") "today" = true ∧
      parseDateRange "is it sunny today" ⟨4, 13, 5, 6, 7⟩ =
        (⟨4, 0, 0, 0, 0⟩, ⟨4, 23, 59, 59, 999999⟩)) ∧
    (parseDateRange "remind me tomorrow" ⟨4, 13, 5, 6, 7⟩ =
        (⟨5, 0, 0, 0, 0⟩, ⟨5, 23, 59, 59, 999999⟩)) ∧
    (∃ d, parseDateRange "schedule it friday" ⟨4, 13, 5, 6, 7⟩ =
           (⟨d, 0, 0, 0, 0⟩, ⟨d, 23, 59, 59, 999999⟩) ∧
         4 < d ∧ d ≤ 4 + 7 ∧ d % 7 = 4 ∧ (4 % 7 = 4 → d = 4 + 7)) ∧
    (parseDateRange "clean the garage" ⟨4, 13, 5, 6, 7⟩ =
        (⟨4, 0, 0, 0, 0⟩, ⟨11, 23, 59, 59, 999999⟩)) := by
  refine ⟨⟨by decide, (parse_date_range_cases "is it sunny today" ⟨4, 13, 5, 6, 7⟩).1 (by decide)⟩,
    (parse_date_range_cases "remind me tomorrow" ⟨4, 13, 5, 6, 7⟩).2.1 (by decide) (by decide),
    (parse_date_range_cases "schedule it friday" ⟨4, 13, 5, 6, 7⟩).2.2.1 "friday" 4
      (by decide) (by decide) (by decide),
    (parse_date_range_cases "clean the garage" ⟨4, 13, 5, 6, 7⟩).2.2.2 (by decide) (by decide)
      (by decide)⟩

end Jarvis

namespace Jarvis

/-! ## C8: fuzzy task matching -/

lemma fbm_fold (q : String) (ts : List Task) :
    ∀ acc : Option Task × ℚ,
      (acc.2 ≤ (ts.foldl (fbmStep q) acc).2) ∧
      ((ts.foldl (fbmStep q) acc) = acc ∨
        ∃ t, (ts.foldl (fbmStep q) acc).1 = some t ∧ t ∈ ts ∧
          (ts.foldl (fbmStep q) acc).2 = taskScore q t ∧ mkRat 6 10 < taskScore q t) ∧
      (∀ t ∈ ts, taskScore q t ≤ (ts.foldl (fbmStep q) acc).2 ∨ taskScore q t ≤ mkRat 6 10) := by
  induction ts with
  | nil => exact fun acc => ⟨le_refl _, Or.inl rfl, by simp⟩
  | cons t0 ts ih =>
    intro acc
    have hfold : (t0 :: ts).foldl (fbmStep q) acc = ts.foldl (fbmStep q) (fbmStep q acc t0) :=
      rfl
    have hstep := ih (fbmStep q acc t0)
    by_cases hc : acc.2 < taskScore q t0 ∧ mkRat 6 10 < taskScore q t0
    · have hacc' : fbmStep q acc t0 = (some t0, taskScore q t0) := by
        simp [fbmStep, hc]
      rw [hacc'] at hstep
      rw [hfold, hacc']
      refine ⟨le_trans (le_of_lt hc.1) hstep.1, ?_, ?_⟩
      · rcases hstep.2.1 with heq | ⟨t, h1, h2, h3, h4⟩
        · exact Or.inr ⟨t0, by rw [heq], List.mem_cons_self t0 ts, by rw [heq], hc.2⟩
        · exact Or.inr ⟨t, h1, List.mem_cons_of_mem t0 h2, h3, h4⟩
      · intro t' ht'
        rcases List.mem_cons.mp ht' with rfl | hmem
        · exact Or.inl hstep.1
        · exact hstep.2.2 t' hmem
    · have hacc' : fbmStep q acc t0 = acc := by
        simp only [fbmStep]
        rw [if_neg hc]
      rw [hacc'] at hstep
      rw [hfold, hacc']
      refine ⟨hstep.1, ?_, ?_⟩
      · rcases hstep.2.1 with heq | ⟨t, h1, h2, h3, h4⟩
        · exact Or.inl heq
        · exact Or.inr ⟨t, h1, List.mem_cons_of_mem t0 h2, h3, h4⟩
      · intro t' ht'
        rcases List.mem_cons.mp ht' with rfl | hmem
        · rcases not_and_or.mp hc with hle | hle
          · exact Or.inl (le_trans (le_of_not_lt hle) hstep.1)
          · exact Or.inr (le_of_not_lt hle)
        · exact hstep.2.2 t' hmem

/-- C8 (amended): `_find_best_task_match` returns a task only if its
similarity STRICTLY exceeds 0.6, and that task maximises the similarity
over the stored tasks; it returns no match exactly when no task scores
strictly above 0.6 (a score of exactly 0.6 is rejected); and the spec's
concrete example — a query identical to the stored title — scores 1.0
and is matched. -/
theorem fuzzy_match_strict_threshold_argmax (q : String) (ts : List Task) :
    (∀ t, findBestTaskMatch q ts = some t →
       t ∈ ts ∧ mkRat 6 10 < taskScore q t ∧ ∀ u ∈ ts, taskScore q u ≤ taskScore q t) ∧
    (findBestTaskMatch q ts = none → ∀ u ∈ ts, taskScore q u ≤ mkRat 6 10) ∧
    (taskScore "finish report" ⟨"finish report"⟩ = 1 ∧
      findBestTaskMatch "finish report" [⟨"finish report"⟩] = some ⟨"finish report"⟩) := by
  have h := fbm_fold q ts ((none : Option Task), (0 : ℚ))
  refine ⟨?_, ?_, by decide, by decide⟩
  · intro t ht
    have ht' : (ts.foldl (fbmStep q) ((none : Option Task), (0 : ℚ))).1 = some t := ht
    rcases h.2.1 with heq | ⟨t', h1, h2, h3, h4⟩
    · rw [heq] at ht'
      exact absurd ht' (by simp)
    · have hte : t' = t := by
        rw [h1] at ht'
        exact Option.some.inj ht'
      subst hte
      refine ⟨h2, h4, ?_⟩
      intro u hu
      rcases h.2.2 u hu with hle | hle
      · rw [h3] at hle; exact hle
      · exact le_trans hle (le_of_lt h4)
  · intro hn u hu
    have hn' : (ts.foldl (fbmStep q) ((none : Option Task), (0 : ℚ))).1 = none := hn
    rcases h.2.1 with heq | ⟨t', h1, h2, h3, h4⟩
    · rcases h.2.2 u hu with hle | hle
      · rw [heq] at hle
        exact le_trans hle (by decide)
      · exact hle
    · rw [h1] at hn'
      exact absurd hn' (by simp)

/-- C8 counterexample to the claim as stated: the task "abcdefg" has
similarity exactly 0.6 to the query "abc"; the claim's "clearing the
≥ 0.6 acceptance threshold" would make it the returned best match, but
the code's strict `score > 0.6` rejects it and no match is returned. -/
theorem fuzzy_match_claim_counterexample :
    taskScore "abc" ⟨"abcdefg"⟩ = mkRat 6 10 ∧
    findBestTaskMatch "abc" [⟨"abcdefg"⟩] = none := by
  exact ⟨by decide, by decide⟩

/-- Witness for C8 at the spec's concrete input: the identical-title
query is matched, exceeds the threshold, and maximises similarity. -/
theorem fuzzy_match_strict_threshold_argmax_witness :
    (⟨"finish report"⟩ : Task) ∈ [(⟨"finish report"⟩ : Task)] ∧
    mkRat 6 10 < taskScore "finish report" ⟨"finish report"⟩ ∧
    (∀ u ∈ [(⟨"finish report"⟩ : Task)],
      taskScore "finish report" u ≤ taskScore "finish report" ⟨"finish report"⟩) :=
  (fuzzy_match_strict_threshold_argmax "finish report" [⟨"finish report"⟩]).1
    ⟨"finish report"⟩ (by decide)

end Jarvis

namespace Jarvis

/-! ## Shared routing and streaming lemmas -/

lemma getUserProfile_snd_history (env : Oracle) (st : OrchState) (u : String) :
    (getUserProfile env st u).2.conversationHistory = st.conversationHistory := by
  unfold getUserProfile
  cases h : st.userProfileCache u
  · cases h2 : env.profileLoad u <;> simp [h, h2]
  · simp [h]

lemma classifyStep_noFiles (env : Oracle) (t : String) (h : List Msg) :
    classifyStep env t h [] =
      ((classifyIntent env t h).1, (classifyIntent env t h).2, [SEvent.classifyCall]) := by
  simp [classifyStep]

lemma classifyStep_files (env : Oracle) (t : String) (h : List Msg) (fps : List String)
    (hne : fps ≠ []) :
    classifyStep env t h fps = ("DOC_ANALYSIS", (1 : ℚ), ([] : List SEvent)) := by
  simp [classifyStep, hne]

lemma routeToHandler_eff_general_chat (env : Oracle) (intent transcript : String)
    (confidence : ℚ) (profile : Profile) (history : List Msg) (userId : String)
    (filePaths : List String)
    (heff : applyConfidenceFallback intent confidence = "GENERAL_CHAT") :
    routeToHandler env intent transcript confidence profile history userId filePaths =
      ([SEvent.handlerRun "GENERAL_CHAT"],
       Except.ok (handleGeneralChat env transcript (some profile) (some history)
         (some userId) filePaths)) := by
  simp [routeToHandler, heff]

lemma routeToHandler_eff_doc (env : Oracle) (intent transcript : String)
    (confidence : ℚ) (profile : Profile) (history : List Msg) (userId : String)
    (filePaths : List String)
    (heff : applyConfidenceFallback intent confidence = "DOC_ANALYSIS") :
    routeToHandler env intent transcript confidence profile history userId filePaths =
      ([SEvent.handlerRun "DOC_ANALYSIS"],
       Except.ok { handleDocAnalysis env transcript profile history userId filePaths with
         message := (handleDocAnalysis env transcript profile history userId filePaths).message.map
           (fun m => beautifyResponse env m "DOC_ANALYSIS") }) := by
  simp [routeToHandler, heff, handleDocAnalysis, handleGeneralChat]

lemma handlerRunsOf_append (a b : List SEvent) :
    handlerRunsOf (a ++ b) = handlerRunsOf a ++ handlerRunsOf b := by
  induction a with
  | nil => rfl
  | cons e rest ih => cases e <;> simp [handlerRunsOf, ih]

lemma handlerRunsOf_yieldMap (cs : List String) (i : String) (q : ℚ) :
    handlerRunsOf (cs.map (fun c => SEvent.yielded c i q)) = [] := by
  induction cs with
  | nil => rfl
  | cons c rest ih => simp [handlerRunsOf, ih]

lemma streamTrace_eq_of_gc (env : Oracle) (st : OrchState) (transcript userId : String)
    (fileIds : List String)
    (hfp : fileIds.filterMap env.filePath = [])
    (heff : applyConfidenceFallback
        (classifyIntent env transcript (st.conversationHistory userId)).1
        (classifyIntent env transcript (st.conversationHistory userId)).2 = "GENERAL_CHAT") :
    streamTrace env st transcript userId fileIds =
      SEvent.classifyCall :: SEvent.handlerRun "GENERAL_CHAT" ::
        SEvent.histAppend userId "user" transcript ::
        ((generateResponseStreamChunks env transcript).map
            (fun c => SEvent.yielded c "GENERAL_CHAT"
              (classifyIntent env transcript (st.conversationHistory userId)).2)
          ++ [SEvent.histAppend userId "model"
                (String.join (generateResponseStreamChunks env transcript)),
              SEvent.yielded "I'm having trouble processing that right now." "GENERAL_CHAT" 0]) := by
  simp [streamTrace, hfp, classifyStep_noFiles, getUserProfile_snd_history, heff]

lemma streamTrace_eq_of_files (env : Oracle) (st : OrchState) (transcript userId : String)
    (fileIds : List String)
    (hfp : fileIds.filterMap env.filePath ≠ []) :
    streamTrace env st transcript userId fileIds =
      SEvent.handlerRun "DOC_ANALYSIS" :: SEvent.histAppend userId "user" transcript ::
        ((generateResponseStreamChunks env
              ("[SYSTEM: Focus exclusively on the provided document/image. Answer based ONLY on its content.] "
                ++ transcript)).map (fun c => SEvent.yielded c "DOC_ANALYSIS" 1)
          ++ [SEvent.histAppend userId "model"
                (String.join (generateResponseStreamChunks env
                  ("[SYSTEM: Focus exclusively on the provided document/image. Answer based ONLY on its content.] "
                    ++ transcript))),
              SEvent.yielded "I'm having trouble processing that right now." "GENERAL_CHAT" 0]) := by
  have h1 : ¬ ((1 : ℚ) < mkRat 7 10) := by decide
  simp [streamTrace, classifyStep_files env _ _ _ hfp, applyConfidenceFallback, h1]

lemma streamTrace_eq_of_doc (env : Oracle) (st : OrchState) (transcript userId : String)
    (fileIds : List String)
    (hfp : fileIds.filterMap env.filePath = [])
    (heff : applyConfidenceFallback
        (classifyIntent env transcript (st.conversationHistory userId)).1
        (classifyIntent env transcript (st.conversationHistory userId)).2 = "DOC_ANALYSIS") :
    streamTrace env st transcript userId fileIds =
      SEvent.classifyCall :: SEvent.handlerRun "DOC_ANALYSIS" ::
        SEvent.histAppend userId "user" transcript ::
        ((generateResponseStreamChunks env
              ("[SYSTEM: Focus exclusively on the provided document/image. Answer based ONLY on its content.] "
                ++ transcript)).map (fun c => SEvent.yielded c "DOC_ANALYSIS"
                  (classifyIntent env transcript (st.conversationHistory userId)).2)
          ++ [SEvent.histAppend userId "model"
                (String.join (generateResponseStreamChunks env
                  ("[SYSTEM: Focus exclusively on the provided document/image. Answer based ONLY on its content.] "
                    ++ transcript))),
              SEvent.yielded "I'm having trouble processing that right now." "GENERAL_CHAT" 0]) := by
  simp [streamTrace, hfp, classifyStep_noFiles, getUserProfile_snd_history, heff]

end Jarvis

namespace Jarvis

/-! ## C1: low confidence always executes the GENERAL_CHAT handler -/

/-- C1: whenever the classification confidence is strictly below 0.7,
the handler that executes is the GENERAL_CHAT handler regardless of the
reported intent — in the buffered path `_route_to_handler` (whose
result is exactly `_handle_general_chat`'s, unbeautified) and in the
streaming path (whose only executed branch is the GENERAL_CHAT one). -/
theorem low_confidence_runs_general_chat
    (env : Oracle) (st : OrchState) (intent transcript : String) (confidence : ℚ)
    (profile : Profile) (history : List Msg) (userId : String)
    (filePaths fileIds : List String) :
    (confidence < mkRat 7 10 →
      routeToHandler env intent transcript confidence profile history userId filePaths =
        ([SEvent.handlerRun "GENERAL_CHAT"],
         Except.ok (handleGeneralChat env transcript (some profile) (some history)
           (some userId) filePaths))) ∧
    ((classifyIntent env transcript (st.conversationHistory userId)).2 < mkRat 7 10 →
      fileIds.filterMap env.filePath = [] →
      handlerRunsOf (streamTrace env st transcript userId fileIds) = ["GENERAL_CHAT"]) := by
  constructor
  · intro hconf
    exact routeToHandler_eff_general_chat _ _ _ _ _ _ _ _
      (by simp [applyConfidenceFallback, hconf])
  · intro hconf hfp
    rw [streamTrace_eq_of_gc env st transcript userId fileIds hfp
      (by simp [applyConfidenceFallback, hconf])]
    simp [handlerRunsOf, handlerRunsOf_append, handlerRunsOf_yieldMap]

/-- Witness for C1: a classifier report of `DELETE_CALENDAR_EVENT` at
confidence 0.5 routes to the general-chat handler in both modes. -/
theorem low_confidence_runs_general_chat_witness :
    ((mkRat 1 2 : ℚ) < mkRat 7 10 ∧
      routeToHandler chatStreamEnv "DELETE_CALENDAR_EVENT" "hm" (mkRat 1 2)
          (defaultProfile "u") [] "u" [] =
        ([SEvent.handlerRun "GENERAL_CHAT"],
         Except.ok (handleGeneralChat chatStreamEnv "hm" (some (defaultProfile "u"))
           (some []) (some "u") []))) ∧
    handlerRunsOf (streamTrace lowConfStreamEnv OrchState.init "hm" "u" []) =
      ["GENERAL_CHAT"] := by
  refine ⟨⟨by decide, ?_⟩, ?_⟩
  · exact (low_confidence_runs_general_chat chatStreamEnv OrchState.init
      "DELETE_CALENDAR_EVENT" "hm" (mkRat 1 2) (defaultProfile "u") [] "u" [] []).1
      (by decide)
  · exact (low_confidence_runs_general_chat lowConfStreamEnv OrchState.init
      "unused" "hm" 0 (defaultProfile "u") [] "u" [] []).2 (by decide) (by decide)

/-! ## C10: the buffered record reports the classifier's original values -/

/-- C10: in buffered mode with no attachments, when the classifier's
confidence is below 0.7 the fallback changes only which handler
executes (GENERAL_CHAT runs), while the `intent` and `confidence`
fields of the returned record keep the classifier's original values. -/
theorem buffered_fallback_keeps_reported_intent
    (env : Oracle) (st : OrchState) (transcript userId : String) (i : String) (c : ℚ)
    (hcls : classifyIntent env transcript (st.conversationHistory userId) = (i, c))
    (hc : c < mkRat 7 10) :
    (processTranscript env st transcript userId []).1.intent = i ∧
    (processTranscript env st transcript userId []).1.confidence = c ∧
    handlerRunsOf (processTranscript env st transcript userId []).2.2 =
      ["GENERAL_CHAT"] := by
  have hhist := getUserProfile_snd_history env st userId
  have heff : applyConfidenceFallback i c = "GENERAL_CHAT" := by
    simp [applyConfidenceFallback, hc]
  have hroute := routeToHandler_eff_general_chat env i transcript c
    ((getUserProfile env st userId).1) (st.conversationHistory userId) userId [] heff
  simp [processTranscript, classifyStep_noFiles, hhist, hcls, hroute,
        handleGeneralChat, handlerRunsOf, handlerRunsOf_append]

/-- Witness for C10: a `DELETE_TASK` report at confidence 0.5 is kept in
the returned record while the general-chat handler runs. -/
theorem buffered_fallback_keeps_reported_intent_witness :
    classifyIntent lowConfStreamEnv "hm" (OrchState.init.conversationHistory "u") =
        ("DELETE_TASK", mkRat 1 2) ∧
    (mkRat 1 2 : ℚ) < mkRat 7 10 ∧
    (processTranscript lowConfStreamEnv OrchState.init "hm" "u" []).1.intent =
      "DELETE_TASK" ∧
    (processTranscript lowConfStreamEnv OrchState.init "hm" "u" []).1.confidence =
      mkRat 1 2 ∧
    handlerRunsOf (processTranscript lowConfStreamEnv OrchState.init "hm" "u" []).2.2 =
      ["GENERAL_CHAT"] := by
  have h := buffered_fallback_keeps_reported_intent lowConfStreamEnv OrchState.init
    "hm" "u" "DELETE_TASK" (mkRat 1 2) (by decide) (by decide)
  exact ⟨by decide, by decide, h.1, h.2.1, h.2.2⟩

end Jarvis

namespace Jarvis

/-! ## C9: attachments bypass classification in both modes -/

/-- C9: whenever the turn carries resolved attachments, no classifier
call is made and the turn proceeds as `DOC_ANALYSIS` with confidence
1.0 — in buffered mode (returned record and event log) and in streaming
mode (trace and every regular yielded item; the only non-`DOC_ANALYSIS`
item a consumer can see is the fixed trailing apology from the
generator's `finally` block). -/
theorem attachment_bypasses_classifier
    (env : Oracle) (st : OrchState) (transcript userId : String) (fileIds : List String)
    (hfp : fileIds.filterMap env.filePath ≠ []) :
    (SEvent.classifyCall ∉ (processTranscript env st transcript userId fileIds).2.2 ∧
     (processTranscript env st transcript userId fileIds).1.intent = "DOC_ANALYSIS" ∧
     (processTranscript env st transcript userId fileIds).1.confidence = 1) ∧
    (SEvent.classifyCall ∉ streamTrace env st transcript userId fileIds ∧
     handlerRunsOf (streamTrace env st transcript userId fileIds) = ["DOC_ANALYSIS"] ∧
     ∀ m i c, SEvent.yielded m i c ∈ streamTrace env st transcript userId fileIds →
       (i = "DOC_ANALYSIS" ∧ c = 1) ∨
       (m = "I'm having trouble processing that right now." ∧
         i = "GENERAL_CHAT" ∧ c = 0)) := by
  have hhist := getUserProfile_snd_history env st userId
  have heff : applyConfidenceFallback "DOC_ANALYSIS" (1 : ℚ) = "DOC_ANALYSIS" := by decide
  have hroute := routeToHandler_eff_doc env "DOC_ANALYSIS" transcript 1
    ((getUserProfile env st userId).1) (st.conversationHistory userId) userId
    (fileIds.filterMap env.filePath) heff
  refine ⟨⟨?_, ?_, ?_⟩, ?_, ?_, ?_⟩
  · simp [processTranscript, classifyStep_files env _ _ _ hfp, hhist, hroute,
          handleDocAnalysis, handleGeneralChat]
  · simp [processTranscript, classifyStep_files env _ _ _ hfp, hhist, hroute,
          handleDocAnalysis, handleGeneralChat]
  · simp [processTranscript, classifyStep_files env _ _ _ hfp, hhist, hroute,
          handleDocAnalysis, handleGeneralChat]
  · rw [streamTrace_eq_of_files env st transcript userId fileIds hfp]
    simp
  · rw [streamTrace_eq_of_files env st transcript userId fileIds hfp]
    simp [handlerRunsOf, handlerRunsOf_append, handlerRunsOf_yieldMap]
  · intro m i c hm
    rw [streamTrace_eq_of_files env st transcript userId fileIds hfp] at hm
    simp only [List.mem_cons, List.mem_append, List.mem_map] at hm
    rcases hm with h | h | h | h
    · cases h
    · cases h
    · rcases h with ⟨x, _, hx⟩
      cases hx
      exact Or.inl ⟨rfl, rfl⟩
    · rcases h with h | h | h
      · cases h
      · cases h
        exact Or.inr ⟨rfl, rfl, rfl⟩
      · cases h

/-- Witness for C9: a resolvable attachment id forces `DOC_ANALYSIS`
at confidence 1.0 with no classifier call. -/
theorem attachment_bypasses_classifier_witness :
    ["doc.pdf"].filterMap docBeautifyEnv.filePath ≠ [] ∧
    (SEvent.classifyCall ∉
        (processTranscript docBeautifyEnv OrchState.init "analyze this" "u" ["doc.pdf"]).2.2 ∧
      (processTranscript docBeautifyEnv OrchState.init "analyze this" "u" ["doc.pdf"]).1.intent =
        "DOC_ANALYSIS" ∧
      (processTranscript docBeautifyEnv OrchState.init "analyze this" "u" ["doc.pdf"]).1.confidence =
        1) :=
  ⟨by decide,
   (attachment_bypasses_classifier docBeautifyEnv OrchState.init "analyze this" "u"
     ["doc.pdf"] (by decide)).1⟩

/-! ## C3: every buffered turn returns a reply -/

/-- C3 counterexample to the claim as stated: the response message is
not always non-empty.  Here every collaborator behaves — except that
the generation call SUCCEEDS returning whitespace-only text — and
`_handle_general_chat` stores `response.text.strip()` unguarded
(gemini.py line 134), so the returned `handler_response` carries the
empty message. -/
theorem empty_generation_message_counterexample :
    emptyGenEnv.generateChat "hello" "" = Except.ok "   " ∧
    (processTranscript emptyGenEnv OrchState.init "hello" "u" []).1.handlerResponse.message =
      some "" :=
  ⟨rfl, by decide⟩

/-- C3 (amended): `process_transcript` is total (translated as a plain
function: no exception from a handler or collaborator reaches the
caller) and its returned `handler_response` always carries a `message`;
when every collaborator call fails, that message is the general-chat
fallback apology, which is non-empty.  (Non-emptiness does not hold in
general: see the counterexample above, where a successful but
whitespace-only generation produces an empty message.) -/
theorem process_transcript_always_replies
    (env : Oracle) (st : OrchState) (transcript userId : String) (fileIds : List String)
    (e : String) :
    (processTranscript env st transcript userId fileIds).1.handlerResponse.message.isSome ∧
    (env.profileLoad = (fun _ => Except.error e) →
     env.classify = (fun _ _ => Except.error e) →
     env.memories = (fun _ => Except.error e) →
     env.generateChat = (fun _ _ => Except.error e) →
     env.generateStream = (fun _ => Except.error e) →
     env.beautifyGen = (fun _ => Except.error e) →
     env.handler = (fun _ _ => Except.error e) →
       (processTranscript env st transcript userId fileIds).1.handlerResponse.message =
         some "I'm having trouble thinking right now. Can you try again?" ∧
       "I'm having trouble thinking right now. Can you try again?" ≠ "") := by
  constructor
  · simp only [processTranscript]
    split
    · split <;> simp_all [handleGeneralChat]
    · simp [handleGeneralChat]
  · intro h1 h2 h3 h4 h5 h6 h7
    have hhist := getUserProfile_snd_history env st userId
    have hcls : classifyIntent env transcript (st.conversationHistory userId) =
        ("GENERAL_CHAT", mkRat 1 2) := by simp [classifyIntent, h2]
    refine ⟨?_, by decide⟩
    by_cases hfp : fileIds.filterMap env.filePath = []
    · have heff : applyConfidenceFallback "GENERAL_CHAT" (mkRat 1 2) = "GENERAL_CHAT" := by
        decide
      have hroute := routeToHandler_eff_general_chat env "GENERAL_CHAT" transcript (mkRat 1 2)
        ((getUserProfile env st userId).1) (st.conversationHistory userId) userId [] heff
      simp [processTranscript, hfp, classifyStep_noFiles, hhist, hcls, hroute,
            handleGeneralChat, generateResponseText, h4]
    · have heff : applyConfidenceFallback "DOC_ANALYSIS" (1 : ℚ) = "DOC_ANALYSIS" := by decide
      have hroute := routeToHandler_eff_doc env "DOC_ANALYSIS" transcript 1
        ((getUserProfile env st userId).1) (st.conversationHistory userId) userId
        (fileIds.filterMap env.filePath) heff
      simp [processTranscript, classifyStep_files env _ _ _ hfp, hhist, hroute,
            handleDocAnalysis, handleGeneralChat, generateResponseText, h4,
            beautifyResponse, h6]

/-- Witness for C3: with every collaborator failing, the turn still
returns the non-empty fallback apology. -/
theorem process_transcript_always_replies_witness :
    (processTranscript allFailEnv OrchState.init "hello" "u" []).1.handlerResponse.message =
      some "I'm having trouble thinking right now. Can you try again?" ∧
    "I'm having trouble thinking right now. Can you try again?" ≠ "" :=
  (process_transcript_always_replies allFailEnv OrchState.init "hello" "u" [] "boom").2
    rfl rfl rfl rfl rfl rfl rfl

end Jarvis

namespace Jarvis

/-! ## C4: cancellation mid-stream and the conversation history -/

lemma takeThroughYields_yieldMap (i : String) (q : ℚ) (post : List SEvent) :
    ∀ (n : ℕ) (cs : List String), 1 ≤ n → n ≤ cs.length →
      takeThroughYields n (cs.map (fun c => SEvent.yielded c i q) ++ post) =
        (cs.take n).map (fun c => SEvent.yielded c i q) := by
  intro n cs
  induction cs generalizing n with
  | nil => intro h1 h2; simp at h2; omega
  | cons c cs ih =>
    intro h1 h2
    simp only [List.map_cons, List.cons_append, takeThroughYields]
    by_cases hn : n ≤ 1
    · rw [if_pos hn]
      have hn1 : n = 1 := by omega
      subst hn1
      simp
    · rw [if_neg hn]
      simp only [List.append_eq]
      rw [ih (n - 1) (by omega) (by simp at h2; omega)]
      cases n with
      | zero => omega
      | succ m => simp [List.take_succ_cons]

lemma applyHist_yieldMap (st : OrchState) (cs : List String) (i : String) (q : ℚ) :
    applyHist st (cs.map (fun c => SEvent.yielded c i q)) = st := by
  induction cs generalizing st with
  | nil => rfl
  | cons c cs ih => simp [applyHist, ih]

/-- C4 counterexample to the claim as stated: a conversational stream of
two chunks is cancelled after the consumer received the first chunk;
the user's history is NOT left without the turn — the user utterance
was appended before streaming began and remains recorded. -/
theorem stream_cancel_counterexample :
    (applyHist OrchState.init
        (takeThroughYields 1
          (streamTrace chatStreamEnv OrchState.init "hi" "u" []))).conversationHistory "u" =
      [Msg.mk "user" "hi"] ∧
    ([Msg.mk "user" "hi"] : List Msg) ≠ [] :=
  ⟨by decide, by decide⟩

/-- C4 (amended): if a conversational-branch stream (GENERAL_CHAT,
classified DOC_ANALYSIS, or attachment-forced DOC_ANALYSIS) is
cancelled after the consumer received chunk `n` of the generated chunks
(`1 ≤ n ≤` number of chunks), no assistant reply — full or partial — is
recorded, but the user utterance is: the history change of the
cancelled turn is exactly the user-message append performed before
streaming began. -/
theorem stream_cancel_keeps_only_user_turn
    (env : Oracle) (st : OrchState) (transcript userId : String) (fileIds : List String)
    (n : ℕ) (h1 : 1 ≤ n) :
    (fileIds.filterMap env.filePath = [] →
     applyConfidenceFallback
         (classifyIntent env transcript (st.conversationHistory userId)).1
         (classifyIntent env transcript (st.conversationHistory userId)).2 = "GENERAL_CHAT" →
     n ≤ (generateResponseStreamChunks env transcript).length →
     applyHist st (takeThroughYields n (streamTrace env st transcript userId fileIds)) =
       addToHistory st userId "user" transcript) ∧
    (fileIds.filterMap env.filePath = [] →
     applyConfidenceFallback
         (classifyIntent env transcript (st.conversationHistory userId)).1
         (classifyIntent env transcript (st.conversationHistory userId)).2 = "DOC_ANALYSIS" →
     n ≤ (generateResponseStreamChunks env
           ("[SYSTEM: Focus exclusively on the provided document/image. Answer based ONLY on its content.] "
             ++ transcript)).length →
     applyHist st (takeThroughYields n (streamTrace env st transcript userId fileIds)) =
       addToHistory st userId "user" transcript) ∧
    (fileIds.filterMap env.filePath ≠ [] →
     n ≤ (generateResponseStreamChunks env
           ("[SYSTEM: Focus exclusively on the provided document/image. Answer based ONLY on its content.] "
             ++ transcript)).length →
     applyHist st (takeThroughYields n (streamTrace env st transcript userId fileIds)) =
       addToHistory st userId "user" transcript) := by
  refine ⟨?_, ?_, ?_⟩
  · intro hfp heff h2
    rw [streamTrace_eq_of_gc env st transcript userId fileIds hfp heff]
    simp only [takeThroughYields]
    rw [takeThroughYields_yieldMap _ _ _ n (generateResponseStreamChunks env transcript) h1 h2]
    simp [applyHist]
    rw [← List.map_take]
    exact applyHist_yieldMap _ _ _ _
  · intro hfp heff h2
    rw [streamTrace_eq_of_doc env st transcript userId fileIds hfp heff]
    simp only [takeThroughYields]
    rw [takeThroughYields_yieldMap _ _ _ n _ h1 h2]
    simp [applyHist]
    rw [← List.map_take]
    exact applyHist_yieldMap _ _ _ _
  · intro hfp h2
    rw [streamTrace_eq_of_files env st transcript userId fileIds hfp]
    simp only [takeThroughYields]
    rw [takeThroughYields_yieldMap _ _ _ n _ h1 h2]
    simp [applyHist]
    rw [← List.map_take]
    exact applyHist_yieldMap _ _ _ _

/-- Witness for C4 (amended) at a concrete two-chunk stream cancelled
after the first chunk. -/
theorem stream_cancel_keeps_only_user_turn_witness :
    1 ≤ (generateResponseStreamChunks chatStreamEnv "hi").length ∧
    applyHist OrchState.init
        (takeThroughYields 1 (streamTrace chatStreamEnv OrchState.init "hi" "u" [])) =
      addToHistory OrchState.init "u" "user" "hi" :=
  ⟨by decide,
   (stream_cancel_keeps_only_user_turn chatStreamEnv OrchState.init "hi" "u" [] 1
     (by decide)).1 (by decide) (by decide) (by decide)⟩

/-! ## C5: number of items a structured-intent stream yields -/

/-- C5: a structured streamed turn (here `GET_WEATHER` at confidence
0.9 with a successful handler) runs the handler to completion but the
stream yields TWO items, not one: the handler message, then the
unconditional "I'm having trouble processing that right now." from the
stray `yield` in the generator's `finally` block (line 215), which the
function's own docstring ("Single handler message") contradicts. -/
theorem structured_stream_yields_two :
    yieldsOf (streamTrace weatherStreamEnv OrchState.init "what is the weather" "u" []) =
      [("It is sunny.", "GET_WEATHER", mkRat 9 10),
       ("I'm having trouble processing that right now.", "GENERAL_CHAT", 0)] ∧
    (yieldsOf (streamTrace weatherStreamEnv OrchState.init "what is the weather" "u" [])).length
      ≠ 1 :=
  ⟨by decide, by decide⟩

end Jarvis

namespace Jarvis

/-! ## C6: when the beautify rewrite is applied -/

/-- C6 counterexample to the claim as stated: a buffered `DOC_ANALYSIS`
turn whose handler message is 43 characters long is NOT returned
unchanged — `_route_to_handler` only exempts `GENERAL_CHAT` from the
beautify step, so the successful rewrite replaces the message. -/
theorem beautify_docanalysis_counterexample :
    (routeToHandler docBeautifyEnv "DOC_ANALYSIS" "analyze the file" 1
        (defaultProfile "u") [] "u" ["f.pdf"]).2 =
      Except.ok ⟨"conversation", some "casual", some "Rewritten."⟩ ∧
    handleDocAnalysis docBeautifyEnv "analyze the file" (defaultProfile "u") [] "u" ["f.pdf"] =
      ⟨"conversation", some "casual",
        some "This is the document analysis result text."⟩ ∧
    ("Rewritten." : String) ≠ "This is the document analysis result text." :=
  ⟨by decide, by decide, by decide⟩

/-- C6 (amended): in `_route_to_handler` the beautify rewrite is applied
to the handler message exactly when the post-fallback intent is not
GENERAL_CHAT — `DOC_ANALYSIS` results are NOT exempt — and
`_beautify_response` itself leaves messages shorter than 30 characters
untouched and leaves the original message untouched when the rewrite
call fails. -/
theorem beautify_condition
    (env : Oracle) (intent transcript : String) (confidence : ℚ)
    (profile : Profile) (history : List Msg) (userId : String) (filePaths : List String)
    (hr : HandlerResult) (m : String) :
    (¬ confidence < mkRat 7 10 → intent ≠ "GENERAL_CHAT" → intent ≠ "DOC_ANALYSIS" →
      intent ∈ handlersKeys → env.handler intent transcript = Except.ok hr →
      hr.message = some m →
      (routeToHandler env intent transcript confidence profile history userId filePaths).2 =
        Except.ok { hr with message := some (beautifyResponse env m intent) }) ∧
    (¬ confidence < mkRat 7 10 → intent = "DOC_ANALYSIS" →
      (routeToHandler env intent transcript confidence profile history userId filePaths).2 =
        Except.ok { handleDocAnalysis env transcript profile history userId filePaths with
          message :=
            (handleDocAnalysis env transcript profile history userId filePaths).message.map
              (fun x => beautifyResponse env x "DOC_ANALYSIS") }) ∧
    (applyConfidenceFallback intent confidence = "GENERAL_CHAT" →
      (routeToHandler env intent transcript confidence profile history userId filePaths).2 =
        Except.ok (handleGeneralChat env transcript (some profile) (some history)
          (some userId) filePaths)) ∧
    (m.length < 30 → beautifyResponse env m intent = m) ∧
    (∀ err, env.beautifyGen m = Except.error err → beautifyResponse env m intent = m) := by
  refine ⟨?_, ?_, ?_, ?_, ?_⟩
  · intro hc hni hnd hin hh hm
    have heff : applyConfidenceFallback intent confidence = intent := by
      simp [applyConfidenceFallback, hc]
    simp [routeToHandler, heff, hni, hnd, hin, hh, hm]
  · intro hc hd
    subst hd
    rw [routeToHandler_eff_doc env _ transcript confidence profile history userId filePaths
      (by simp [applyConfidenceFallback, hc])]
  · intro heff
    rw [routeToHandler_eff_general_chat env intent transcript confidence profile history
      userId filePaths heff]
  · intro hshort
    simp [beautifyResponse, hshort]
  · intro err herr
    simp [beautifyResponse, herr]

/-- Witness for C6 (amended): a structured `GET_WEATHER` result passes
through `_beautify_response`, and its 12-character message is left
unchanged by it. -/
theorem beautify_condition_witness :
    ¬ (mkRat 9 10 : ℚ) < mkRat 7 10 ∧
    (routeToHandler weatherStreamEnv "GET_WEATHER" "weather" (mkRat 9 10)
        (defaultProfile "u") [] "u" []).2 =
      Except.ok { type := "weather", data := some "70F",
                  message :=
                    some (beautifyResponse weatherStreamEnv "It is sunny." "GET_WEATHER") } ∧
    beautifyResponse weatherStreamEnv "It is sunny." "GET_WEATHER" = "It is sunny." := by
  refine ⟨by decide, ?_, ?_⟩
  · exact (beautify_condition weatherStreamEnv "GET_WEATHER" "weather" (mkRat 9 10)
      (defaultProfile "u") [] "u" [] ⟨"weather", some "70F", some "It is sunny."⟩
      "It is sunny.").1 (by decide) (by decide) (by decide) (by decide) rfl rfl
  · exact (beautify_condition weatherStreamEnv "GET_WEATHER" "weather" (mkRat 9 10)
      (defaultProfile "u") [] "u" [] ⟨"weather", some "70F", some "It is sunny."⟩
      "It is sunny.").2.2.2.1 (by decide)

end Jarvis
